import Mathlib

/-!
Verification of the api_yamdb content-review service: a shallow embedding of
the persistent data model (reviews/models.py) and the resource handlers
(api/views.py), with theorems settling the specification claims about them.
Machine strings are Lean strings, database rows are list entries, and each
HTTP handler becomes a pure function from a store and request data to a
response (and possibly an updated store plus emitted emails).
-/

namespace YaMDb

/-- User rows, from reviews/models.py lines 6-31 (User extending Django's
AbstractUser). The fields relevant to the claims: username (unique, from the
base class, max length 150), email (unique, max_length=255), bio, role (a
CharField with choices user/moderator/admin, blank=True, null=True, default
user), and the superuser system flag from the base class. -/
structure User where
  username : String
  email : String
  bio : String
  role : Option String
  is_superuser : Bool
deriving DecidableEq, Repr

/-- Genre rows, from reviews/models.py lines 34-39: name (max 256) and a
unique slug (max 50). Rows carry a synthetic primary key. -/
structure Genre where
  id : Nat
  name : String
  slug : String
deriving DecidableEq, Repr

/-- Category rows, from reviews/models.py lines 42-47. -/
structure Category where
  id : Nat
  name : String
  slug : String
deriving DecidableEq, Repr

/-- Title rows, from reviews/models.py lines 50-63: name, integer year,
optional description, a many-to-many genre set (held as genre ids) and an
optional category foreign key (null=True, on_delete=SET_NULL). -/
structure Title where
  id : Nat
  name : String
  year : Int
  description : Option String
  genre : List Nat
  category : Option Nat
deriving DecidableEq, Repr

/-- Review rows, from reviews/models.py lines 66-88: text, author (foreign key
to User, held by unique username), title (foreign key, CASCADE), and a small
integer score carrying MinValueValidator 1 and MaxValueValidator 10. -/
structure Review where
  id : Nat
  text : String
  author : String
  title : Nat
  score : Int
deriving DecidableEq, Repr

/-- Comment rows, from reviews/models.py lines 91-101: text, author (CASCADE),
review foreign key (CASCADE). -/
structure Comment where
  id : Nat
  text : String
  author : String
  review : Nat
deriving DecidableEq, Repr

/-- The persistent store: one list of rows per model. -/
structure Store where
  users : List User
  genres : List Genre
  categories : List Category
  titles : List Title
  reviews : List Review
  comments : List Comment
deriving DecidableEq, Repr

/-- django.core.validators.MinValueValidator, as attached to Review.score at
reviews/models.py line 74: the value passes when it is at least the limit. -/
def MinValueValidator (limit v : Int) : Bool := decide (limit ≤ v)

/-- django.core.validators.MaxValueValidator, reviews/models.py line 74. -/
def MaxValueValidator (limit v : Int) : Bool := decide (v ≤ limit)

/-- The validator list of Review.score (reviews/models.py lines 72-75):
MinValueValidator 1 and MaxValueValidator 10 must both pass. -/
def scoreValid (v : Int) : Bool := MinValueValidator 1 v && MaxValueValidator 10 v

/-- The UniqueConstraint over fields [author, title] declared with name
rating_once in Review.Meta (reviews/models.py lines 82-88): a review list
satisfies it when no two distinct rows share both author and title. -/
def rating_once (rs : List Review) : Prop :=
  ∀ r1 ∈ rs, ∀ r2 ∈ rs, r1.author = r2.author → r1.title = r2.title → r1 = r2

instance (rs : List Review) : Decidable (rating_once rs) := by
  unfold rating_once; infer_instance

/-- Error taxonomy of the API layer (spec section 7): invalid input maps to
HTTP 400, conflict to a uniqueness violation, not-found to HTTP 404. -/
inductive ApiError where
  | InvalidInput
  | Conflict
  | NotFound
deriving DecidableEq, Repr

/-- Review creation as reached through ReviewViewSet (api/views.py lines
57-69). The score bound comes from the model validators (reviews/models.py
lines 72-75); field validation runs first. Modelled from the spec: the
ReviewSerializer (api/serializers.py, absent from src/) enforces the
uniqueness of (author, title) at the serialization layer, returning Conflict
before the rating_once database constraint is reached; author and title are
assigned server-side, the title being resolved with get_object_or_404 in
perform_create (api/views.py lines 67-69). -/
def insertReview (s : Store) (author : String) (titleId : Nat) (text : String)
    (score : Int) (newId : Nat) : Except ApiError Store :=
  if !scoreValid score then .error .InvalidInput
  else if s.reviews.any (fun r => r.author == author && r.title == titleId) then
    .error .Conflict
  else if !(s.titles.any fun t => t.id == titleId) then .error .NotFound
  else .ok { s with reviews :=
    s.reviews ++ [{ id := newId, text := text, author := author,
                    title := titleId, score := score }] }

/-- Category deletion. Title.category declares on_delete=SET_NULL with
null=True (reviews/models.py lines 55-60): the category row is removed and
every title that referenced it keeps existing with its category cleared. -/
def deleteCategory (s : Store) (cid : Nat) : Store :=
  { s with
    categories := s.categories.filter fun c => !(c.id == cid),
    titles := s.titles.map fun t =>
      if t.category == some cid then { t with category := none } else t }

/-- Title deletion. Review.title declares on_delete=CASCADE (reviews/models.py
lines 70-71) and Comment.review declares on_delete=CASCADE (lines 95-96): the
title row, its reviews, and the comments on those reviews are all removed. -/
def deleteTitle (s : Store) (tid : Nat) : Store :=
  let deadReviews := s.reviews.filter fun r => r.title == tid
  { s with
    titles := s.titles.filter fun t => !(t.id == tid),
    reviews := s.reviews.filter fun r => !(r.title == tid),
    comments := s.comments.filter fun c =>
      !(deadReviews.any fun r => r.id == c.review) }

/-- Modelled from the spec: the confirmation-code generator
(django.contrib.auth.tokens.default_token_generator, a platform dependency
outside the repository; spec sections 4.2 and 9) — a deterministic token tied
to the user's current state. -/
def make_token (u : User) : String :=
  "cc-" ++ u.username ++ "-" ++ toString u.email.length

/-- Modelled from the spec: verification of a confirmation code recomputes the
expected token for the user's current state and compares (spec section 9). -/
def check_token (u : User) (code : String) : Bool := code == make_token u

/-- Modelled from the spec: the bearer access token minted on successful
exchange, str(RefreshToken.for_user(user).access_token) at api/views.py line
186 — a signed claim set carrying the user identifier (spec section 9). -/
def accessTokenFor (u : User) : String := "jwt." ++ u.username ++ ".sig"

/-- The response of the token endpoint: HTTP status, the token field of the
body when present, and the error-message field when present. -/
structure TokenResp where
  status : Nat
  token : Option String
  errorMsg : Option String
deriving DecidableEq, Repr

/-- TokenViewSet.create (api/views.py lines 176-191): look the user up by
username (get_object_or_404 gives 404 when absent), check the confirmation
code, and either answer 200 with a body holding the minted token or 400 with
an error-message body. The handler never writes to the store: the returned
store is the input store in every branch. -/
def tokenCreate (s : Store) (username code : String) : TokenResp × Store :=
  match s.users.find? (fun u => u.username == username) with
  | none => ({ status := 404, token := none, errorMsg := none }, s)
  | some user =>
    if check_token user code then
      ({ status := 200, token := some (accessTokenFor user), errorMsg := none }, s)
    else
      ({ status := 400, token := none, errorMsg := some "Код неправильный." }, s)

/-- Username alphabet of the sign-up contract: letters, digits and the four
symbols of the Django username validator (spec section 4.4). -/
def usernameCharOk (c : Char) : Bool :=
  c.isAlphanum || c == '.' || c == '@' || c == '+' || c == '-' || c == '_'

/-- Splits a character list at every occurrence of the separator. -/
def splitChars (sep : Char) : List Char → List (List Char)
  | [] => [[]]
  | c :: t =>
    let r := splitChars sep t
    if c == sep then [] :: r
    else
      match r with
      | [] => [[c]]
      | h :: t2 => (c :: h) :: t2

/-- Characters accepted in the local part of an email address. -/
def emailLocalCharOk (c : Char) : Bool :=
  c.isAlphanum || c == '.' || c == '_' || c == '-' || c == '+'

/-- Characters accepted inside a domain label of an email address. -/
def emailLabelCharOk (c : Char) : Bool := c.isAlphanum || c == '-'

/-- One domain label: non-empty, at most 63 characters, over the label
alphabet. -/
def labelOk (l : List Char) : Bool :=
  decide (0 < l.length) && decide (l.length ≤ 63) && l.all emailLabelCharOk

/-- A dotted email domain: at least two labels, every label well formed, the
final label alphabetic of length at least two. -/
def domainOk (d : List Char) : Bool :=
  let labels := splitChars '.' d
  decide (2 ≤ labels.length) && labels.all labelOk &&
    (match labels.getLast? with
     | none => false
     | some last => decide (2 ≤ last.length) && last.all Char.isAlpha)

/-- The format validation the email field carries: EmailField
(reviews/models.py lines 16-20) attaches Django's email validator, here a
single at sign separating a non-empty local part over the local alphabet from
a dotted domain of well-formed labels. -/
def emailFormatValid (e : String) : Bool :=
  match splitChars '@' e.toList with
  | [lpart, domain] =>
    decide (0 < lpart.length) && lpart.all emailLocalCharOk && domainOk domain
  | _ => false

/-- Modelled from the spec: SignUpSerializer (api/serializers.py, absent from
src/). Per spec section 4.4 it rejects the reserved username value me, a
username over 150 characters or outside the allowed alphabet, an email over
254 characters; it then requires the (username, email) pair to be fresh or to
match an existing record exactly — same username with another email, or same
email with another username, is a Conflict. -/
def signUpValidate (s : Store) (username email : String) : Option ApiError :=
  if username == "me" then some .InvalidInput
  else if username.length == 0 || username.length > 150
      || !(username.toList.all usernameCharOk) then some .InvalidInput
  else if email.length == 0 || email.length > 254
      || !(emailFormatValid email) then some .InvalidInput
  else match s.users.find? (fun u => u.username == username) with
    | some u => if u.email == email then none else some .Conflict
    | none =>
      if s.users.any (fun u => u.email == email) then some .Conflict else none

/-- The account record built by the sign-up serializer for a fresh pair:
default role user (reviews/models.py line 29), empty bio, not superuser. -/
def newSignUpUser (username email : String) : User :=
  { username := username, email := email, bio := "",
    role := some "user", is_superuser := false }

/-- An email handed to the outbound transport: recipient address and the
confirmation code it carries. -/
structure Email where
  recipient : String
  code : String
deriving DecidableEq, Repr

/-- The sign-up response: HTTP status, whether the success headers computed by
get_success_headers were attached, and the echoed body fields. -/
structure SignUpResp where
  status : Nat
  hasSuccessHeaders : Bool
  bodyUsername : String
  bodyEmail : String
deriving DecidableEq, Repr

/-- SignUpViewSet.create (api/views.py lines 158-167): validate with
raise_exception, perform_create, compute success headers, re-fetch the user by
username, call send_email(user) exactly once, and respond with the serializer
data and status HTTP_200_OK. Modelled from the spec: the serializer's create
(api/serializers.py, absent from src/) stores a new account for a fresh pair
and leaves the existing record in place on an exact (username, email) match;
send_email (api/send_email.py, absent from src/) dispatches one message with
the confirmation code to the user's address. -/
def signUp (s : Store) (username email : String) :
    Except ApiError (Store × SignUpResp × List Email) :=
  match signUpValidate s username email with
  | some e => .error e
  | none =>
    let resp : SignUpResp :=
      { status := 200, hasSuccessHeaders := true,
        bodyUsername := username, bodyEmail := email }
    match s.users.find? (fun u => u.username == username) with
    | some u => .ok (s, resp, [{ recipient := u.email, code := make_token u }])
    | none =>
      let u := newSignUpUser username email
      .ok ({ s with users := s.users ++ [u] }, resp,
           [{ recipient := u.email, code := make_token u }])

/-- Character-wise lowercasing of a string, the meaning of Python's
str.lower() for the ASCII identifiers this API compares. -/
def strLower (s : String) : String := String.mk (s.toList.map Char.toLower)

/-- UsersViewSet.get_queryset (api/views.py lines 143-146): when the username
path parameter lowercases to me, the lookup key is replaced by the requesting
user, so the resolved target is the caller's own record; otherwise the
parameter is used as the literal lookup key. -/
def resolveUsernameParam (pathParam callerUsername : String) : String :=
  if strLower pathParam == "me" then callerUsername else pathParam

/-- Case-sensitive substring test over character lists: true exactly when the
needle occurs contiguously inside the haystack. -/
def containsSub (needle : List Char) : List Char → Bool
  | [] => needle.isEmpty
  | c :: t => needle.isPrefixOf (c :: t) || containsSub needle t

/-- The Django contains lookup on a character field: case-sensitive
containment of the filter value in the stored value. -/
def strContains (hay needle : String) : Bool := containsSub needle.toList hay.toList

/-- Query parameters accepted by TitleFilter (api/views.py lines 32-40):
name, genre, category, year. -/
structure TitleFilterParams where
  name : Option String
  genre : Option String
  category : Option String
  year : Option Int
deriving DecidableEq, Repr

/-- One title against TitleFilter (api/views.py lines 32-40): name filters
with lookup_expr contains (case-sensitive containment), genre filters on
genre__slug (exact slug of some linked genre), category on category__slug
(exact slug of the linked category), year with the default exact lookup. -/
def titleMatches (s : Store) (f : TitleFilterParams) (t : Title) : Bool :=
  (match f.name with
   | none => true
   | some v => strContains t.name v) &&
  (match f.genre with
   | none => true
   | some v => s.genres.any fun g => t.genre.contains g.id && g.slug == v) &&
  (match f.category with
   | none => true
   | some v =>
     match t.category with
     | none => false
     | some cid => s.categories.any fun c => c.id == cid && c.slug == v) &&
  (match f.year with
   | none => true
   | some v => t.year == v)

/-- The title-list result for a filtered request (TitleViewSet with
DjangoFilterBackend and TitleFilter, api/views.py lines 43-49). -/
def filterTitles (s : Store) (f : TitleFilterParams) : List Title :=
  s.titles.filter (titleMatches s f)

/-- The name filter as the specification words it — substring compared
case-insensitively. Stated only for comparison against the code's
case-sensitive contains lookup in titleMatches. -/
def specNameMatchesCI (t : Title) (v : String) : Bool :=
  strContains (strLower t.name) (strLower v)

/-- The actions a REST-framework viewset can route. -/
inductive Action where
  | list
  | create
  | retrieve
  | update
  | partialUpdate
  | destroy
deriving DecidableEq, Repr

/-- The model mixins a viewset can inherit from rest_framework.mixins. -/
inductive Mixin where
  | CreateModelMixin
  | ListModelMixin
  | RetrieveModelMixin
  | UpdateModelMixin
  | DestroyModelMixin
deriving DecidableEq, Repr

/-- The actions each rest_framework mixin contributes to a GenericViewSet. -/
def mixinActions : Mixin → List Action
  | .CreateModelMixin => [.create]
  | .ListModelMixin => [.list]
  | .RetrieveModelMixin => [.retrieve]
  | .UpdateModelMixin => [.update, .partialUpdate]
  | .DestroyModelMixin => [.destroy]

/-- The mixin bases of CategoriesViewSet (api/views.py lines 89-94):
CreateModelMixin, ListModelMixin, DestroyModelMixin over GenericViewSet. -/
def categoriesViewSetMixins : List Mixin :=
  [.CreateModelMixin, .ListModelMixin, .DestroyModelMixin]

/-- The mixin bases of GenresViewSet (api/views.py lines 105-110). -/
def genresViewSetMixins : List Mixin :=
  [.CreateModelMixin, .ListModelMixin, .DestroyModelMixin]

/-- All actions routable on a viewset built from the given mixins. -/
def supportedActions (ms : List Mixin) : List Action :=
  (ms.map mixinActions).flatten

/-- The role choices of the User model (reviews/models.py lines 7-15). -/
def ROLE_CHOICES : List String := ["user", "moderator", "admin"]

/-- Validation of the role field (reviews/models.py lines 25-31): null=True
admits a missing value, blank=True admits the empty string, max_length=10
bounds the stored text, and any non-blank value must be a declared choice. -/
def roleValid (r : Option String) : Bool :=
  match r with
  | none => true
  | some v => v.length ≤ 10 && (v == "" || ROLE_CHOICES.contains v)

/-- Per-record validation of a User row (reviews/models.py lines 6-31 with the
AbstractUser base): username non-empty, at most 150 characters, over the
username alphabet; email at most 255 characters (the field declares
max_length=255 at line 18) and format-valid per the email validator the
EmailField carries; role as in roleValid. -/
def userRecordValid (u : User) : Bool :=
  decide (0 < u.username.length) && decide (u.username.length ≤ 150) &&
  u.username.toList.all usernameCharOk &&
  decide (u.email.length ≤ 255) && emailFormatValid u.email && roleValid u.role

/-- The store invariant for users: usernames unique (AbstractUser), emails
unique (reviews/models.py lines 16-20), every row individually valid. -/
def usersInvariant (us : List User) : Prop :=
  (∀ u1 ∈ us, ∀ u2 ∈ us, u1.username = u2.username → u1 = u2) ∧
  (∀ u1 ∈ us, ∀ u2 ∈ us, u1.email = u2.email → u1 = u2) ∧
  (∀ u ∈ us, userRecordValid u = true)

instance (us : List User) : Decidable (usersInvariant us) := by
  unfold usersInvariant; infer_instance

/-- The user invariant as the specification words it — email at most 254
characters and role always one of the three named choices. Stated only for
comparison against the code's userRecordValid. -/
def specUserRecordValid (u : User) : Bool :=
  decide (u.email.length ≤ 254) &&
  (match u.role with
   | none => false
   | some v => ROLE_CHOICES.contains v)

/-- The record an administrative user-create request persists. -/
def newAdminUser (un em bio : String) (ro : Option String) : User :=
  { username := un, email := em, bio := bio, role := ro,
    is_superuser := false }

/-- UsersViewSet.create (api/views.py lines 131-141): validate with the
serializer, persist on success and answer 201 with the success headers, else
answer 400. Modelled from the spec: UserSerializer (api/serializers.py,
absent from src/) validates the profile fields against the User model
constraints — the per-field checks of userRecordValid — and reports a
username or email uniqueness violation as a Conflict. -/
def usersCreate (s : Store) (un em bio : String) (ro : Option String) :
    Except ApiError Store :=
  if !(userRecordValid (newAdminUser un em bio ro)) then .error .InvalidInput
  else if s.users.any (fun u => u.username == un) then .error .Conflict
  else if s.users.any (fun u => u.email == em) then .error .Conflict
  else .ok { s with users := s.users ++ [newAdminUser un em bio ro] }

/-- The record a partial update (PATCH) produces: each supplied field
replaces the stored one, omitted fields keep their stored values, the
superuser flag is not serialized. -/
def applyUserPatch (u : User) (nun nem nbio : Option String)
    (nro : Option (Option String)) : User :=
  { username := nun.getD u.username, email := nem.getD u.email,
    bio := nbio.getD u.bio, role := nro.getD u.role,
    is_superuser := u.is_superuser }

/-- Partial update of a user record (PATCH on /users/{username}/ through
UsersViewSet, api/views.py lines 121-129, the ModelViewSet default with
lookup_field username; the path value is first resolved by
resolveUsernameParam). Modelled from the spec: UserSerializer
(api/serializers.py, absent from src/) validates the patched record against
the User model constraints and reports a username or email collision with a
record other than the target as a Conflict. -/
def usersPartialUpdate (s : Store) (target : String)
    (nun nem nbio : Option String) (nro : Option (Option String)) :
    Except ApiError Store :=
  match s.users.find? (fun u => u.username == target) with
  | none => .error .NotFound
  | some u =>
    if !(userRecordValid (applyUserPatch u nun nem nbio nro)) then
      .error .InvalidInput
    else if s.users.any (fun v => !(v.username == target) &&
        v.username == (applyUserPatch u nun nem nbio nro).username) then
      .error .Conflict
    else if s.users.any (fun v => !(v.username == target) &&
        v.email == (applyUserPatch u nun nem nbio nro).email) then
      .error .Conflict
    else .ok { s with users := s.users.map fun v =>
      if v.username == target then applyUserPatch u nun nem nbio nro else v }

/-- UsersViewSet.destroy (api/views.py lines 148-151): resolve the record
(404 when absent), remove it, answer 204. -/
def usersDestroy (s : Store) (target : String) : Except ApiError Store :=
  match s.users.find? (fun u => u.username == target) with
  | none => .error .NotFound
  | some _ =>
    .ok { s with users := s.users.filter fun u => !(u.username == target) }

/-- An empty store, the state before any request. -/
def emptyStore : Store :=
  { users := [], genres := [], categories := [], titles := [],
    reviews := [], comments := [] }

/-- A sample user for concrete evaluations. -/
def demoUser : User :=
  { username := "alice", email := "alice@example.com", bio := "",
    role := some "user", is_superuser := false }

/-- A sample genre row. -/
def demoGenre : Genre := { id := 3, name := "Science fiction", slug := "sci-fi" }

/-- A sample category row. -/
def demoCategory : Category := { id := 5, name := "Films", slug := "films" }

/-- A sample title row, linked to the sample genre and category. -/
def demoTitle : Title :=
  { id := 7, name := "Matrix", year := 1999, description := none,
    genre := [3], category := some 5 }

/-- A sample review by the sample user on the sample title. -/
def demoReview : Review :=
  { id := 1, text := "good", author := "alice", title := 7, score := 8 }

/-- A sample comment on the sample review. -/
def demoComment : Comment :=
  { id := 1, text := "agreed", author := "bob", review := 1 }

/-- A populated sample store. -/
def demoStore : Store :=
  { users := [demoUser], genres := [demoGenre], categories := [demoCategory],
    titles := [demoTitle], reviews := [demoReview], comments := [demoComment] }

/-- A store holding only the sample title, for filter evaluations. -/
def matrixStore : Store :=
  { users := [], genres := [], categories := [], titles := [demoTitle],
    reviews := [], comments := [] }

/-- A format-valid email address of exactly 255 characters: a 243-character
local part followed by the 12 characters of the at sign and domain. -/
def email255 : String := String.mk (List.replicate 243 'a') ++ "@example.com"

/-- A user whose email is 255 characters long. -/
def longEmailUser : User :=
  { username := "bob", email := email255, bio := "",
    role := some "user", is_superuser := false }

/-- A user whose role field is null. -/
def nullRoleUser : User :=
  { username := "eve", email := "eve@example.com", bio := "",
    role := none, is_superuser := false }

lemma rating_once_append (rs : List Review) (r0 : Review)
    (h : rating_once rs)
    (hnew : ∀ r ∈ rs, ¬(r.author = r0.author ∧ r.title = r0.title)) :
    rating_once (rs ++ [r0]) := by
  intro r1 h1 r2 h2 hauth htitle
  rcases List.mem_append.1 h1 with h1m | h1m <;>
    rcases List.mem_append.1 h2 with h2m | h2m
  · exact h r1 h1m r2 h2m hauth htitle
  · have h2e : r2 = r0 := by simpa using h2m
    subst h2e
    exact absurd ⟨hauth, htitle⟩ (hnew r1 h1m)
  · have h1e : r1 = r0 := by simpa using h1m
    subst h1e
    exact absurd ⟨hauth.symm, htitle.symm⟩ (hnew r2 h2m)
  · have h1e : r1 = r0 := by simpa using h1m
    have h2e : r2 = r0 := by simpa using h2m
    rw [h1e, h2e]

lemma rating_once_of_sublist (rs rs2 : List Review)
    (hsub : ∀ r ∈ rs2, r ∈ rs) (h : rating_once rs) : rating_once rs2 := by
  intro r1 h1 r2 h2 hauth htitle
  exact h r1 (hsub r1 h1) r2 (hsub r2 h2) hauth htitle

lemma containsSub_iff (needle hay : List Char) :
    containsSub needle hay = true ↔ ∃ pre post, hay = pre ++ needle ++ post := by
  induction hay with
  | nil =>
    simp only [containsSub, List.isEmpty_iff]
    constructor
    · rintro rfl
      exact ⟨[], [], rfl⟩
    · rintro ⟨pre, post, hp⟩
      rcases List.append_eq_nil.1 (List.append_eq_nil.1 hp.symm).1 with ⟨-, h2⟩
      exact h2
  | cons ch t ih =>
    simp only [containsSub, Bool.or_eq_true, ih]
    constructor
    · rintro (hpre | ⟨pre, post, rfl⟩)
      · obtain ⟨post, hp⟩ := List.isPrefixOf_iff_prefix.1 hpre
        exact ⟨[], post, by simpa using hp.symm⟩
      · exact ⟨ch :: pre, post, rfl⟩
    · rintro ⟨pre, post, hp⟩
      cases pre with
      | nil =>
        left
        exact List.isPrefixOf_iff_prefix.2 ⟨post, by simpa using hp.symm⟩
      | cons p ps =>
        right
        refine ⟨ps, post, ?_⟩
        have hp2 : ch = p ∧ t = ps ++ needle ++ post := by simpa using hp
        exact hp2.2

lemma strContains_iff (hay needle : String) :
    strContains hay needle = true ↔
      ∃ pre post, hay.toList = pre ++ needle.toList ++ post :=
  containsSub_iff needle.toList hay.toList

lemma accessTokenFor_ne_empty (u : User) : accessTokenFor u ≠ "" := by
  unfold accessTokenFor
  intro h
  have h2 : ("jwt." ++ u.username ++ ".sig").length = ("" : String).length :=
    congrArg String.length h
  rw [String.length_append, String.length_append] at h2
  have h3 : ("jwt." : String).length = 4 := rfl
  have h4 : ("" : String).length = 0 := rfl
  omega

lemma signUpValidate_facts (s : Store) (un em : String)
    (hv : signUpValidate s un em = none) :
    0 < un.length ∧ un.length ≤ 150 ∧ un.toList.all usernameCharOk = true ∧
      0 < em.length ∧ em.length ≤ 254 ∧ emailFormatValid em = true ∧
      ((s.users.find? fun u => u.username == un) = none →
        (s.users.any fun u => u.email == em) = false) := by
  unfold signUpValidate at hv
  split at hv
  · exact absurd hv (by simp)
  split at hv
  · exact absurd hv (by simp)
  split at hv
  · exact absurd hv (by simp)
  rename_i h1 h2 h3
  have h2' := Bool.of_not_eq_true h2
  have h3' := Bool.of_not_eq_true h3
  simp only [Bool.or_eq_false_iff, beq_eq_false_iff_ne, ne_eq,
    decide_eq_false_iff_not, Bool.not_eq_false', Nat.not_lt] at h2' h3'
  obtain ⟨⟨h2a, h2b⟩, h2c⟩ := h2'
  obtain ⟨⟨h3a, h3b⟩, h3c⟩ := h3'
  refine ⟨Nat.pos_of_ne_zero h2a, h2b, h2c, Nat.pos_of_ne_zero h3a, h3b, h3c, ?_⟩
  intro hf
  split at hv
  · rename_i u heq
    rw [heq] at hf
    exact absurd hf (by simp)
  · split at hv
    · exact absurd hv (by simp)
    · rename_i hcond
      exact Bool.of_not_eq_true hcond

lemma usersInvariant_of_sublist (us us2 : List User)
    (hsub : ∀ u ∈ us2, u ∈ us) (h : usersInvariant us) : usersInvariant us2 := by
  obtain ⟨h1, h2, h3⟩ := h
  exact ⟨fun u1 hm1 u2 hm2 => h1 u1 (hsub u1 hm1) u2 (hsub u2 hm2),
         fun u1 hm1 u2 hm2 => h2 u1 (hsub u1 hm1) u2 (hsub u2 hm2),
         fun u hm => h3 u (hsub u hm)⟩

lemma usersInvariant_update (us : List User) (target : String) (nu : User)
    (h : usersInvariant us)
    (hunew : ∀ v ∈ us, v.username ≠ target → v.username ≠ nu.username)
    (henew : ∀ v ∈ us, v.username ≠ target → v.email ≠ nu.email)
    (hv : userRecordValid nu = true) :
    usersInvariant (us.map fun v => if v.username == target then nu else v) := by
  obtain ⟨h1, h2, h3⟩ := h
  have hmem : ∀ w ∈ us.map (fun v => if v.username == target then nu else v),
      w = nu ∨ (w ∈ us ∧ w.username ≠ nu.username ∧ w.email ≠ nu.email) := by
    intro w hw
    obtain ⟨v, hvm, rfl⟩ := List.mem_map.1 hw
    by_cases ht : v.username == target
    · left
      rw [if_pos ht]
    · right
      have hvt : v.username ≠ target := by simpa using ht
      rw [if_neg ht]
      exact ⟨hvm, hunew v hvm hvt, henew v hvm hvt⟩
  refine ⟨?_, ?_, ?_⟩
  · intro u1 hm1 u2 hm2 heq
    rcases hmem u1 hm1 with e1 | ⟨hin1, hn1, -⟩
    · rcases hmem u2 hm2 with e2 | ⟨hin2, hn2, -⟩
      · rw [e1, e2]
      · rw [e1] at heq
        exact absurd heq.symm hn2
    · rcases hmem u2 hm2 with e2 | ⟨hin2, hn2, -⟩
      · rw [e2] at heq
        exact absurd heq hn1
      · exact h1 u1 hin1 u2 hin2 heq
  · intro u1 hm1 u2 hm2 heq
    rcases hmem u1 hm1 with e1 | ⟨hin1, -, hn1⟩
    · rcases hmem u2 hm2 with e2 | ⟨hin2, -, hn2⟩
      · rw [e1, e2]
      · rw [e1] at heq
        exact absurd heq.symm hn2
    · rcases hmem u2 hm2 with e2 | ⟨hin2, -, hn2⟩
      · rw [e2] at heq
        exact absurd heq hn1
      · exact h2 u1 hin1 u2 hin2 heq
  · intro u hm
    rcases hmem u hm with e | ⟨hin, -, -⟩
    · rw [e]
      exact hv
    · exact h3 u hin

lemma usersInvariant_append (us : List User) (nu : User)
    (h : usersInvariant us)
    (hu : ∀ u ∈ us, u.username ≠ nu.username)
    (he : ∀ u ∈ us, u.email ≠ nu.email)
    (hv : userRecordValid nu = true) :
    usersInvariant (us ++ [nu]) := by
  obtain ⟨h1, h2, h3⟩ := h
  refine ⟨?_, ?_, ?_⟩
  · intro u1 hm1 u2 hm2 heq
    rcases List.mem_append.1 hm1 with hm1a | hm1b
    · rcases List.mem_append.1 hm2 with hm2a | hm2b
      · exact h1 u1 hm1a u2 hm2a heq
      · have he2 : u2 = nu := by simpa using hm2b
        rw [he2] at heq
        exact absurd heq (hu u1 hm1a)
    · have he1 : u1 = nu := by simpa using hm1b
      rcases List.mem_append.1 hm2 with hm2a | hm2b
      · rw [he1] at heq
        exact absurd heq.symm (hu u2 hm2a)
      · have he2 : u2 = nu := by simpa using hm2b
        rw [he1, he2]
  · intro u1 hm1 u2 hm2 heq
    rcases List.mem_append.1 hm1 with hm1a | hm1b
    · rcases List.mem_append.1 hm2 with hm2a | hm2b
      · exact h2 u1 hm1a u2 hm2a heq
      · have he2 : u2 = nu := by simpa using hm2b
        rw [he2] at heq
        exact absurd heq (he u1 hm1a)
    · have he1 : u1 = nu := by simpa using hm1b
      rcases List.mem_append.1 hm2 with hm2a | hm2b
      · rw [he1] at heq
        exact absurd heq.symm (he u2 hm2a)
      · have he2 : u2 = nu := by simpa using hm2b
        rw [he1, he2]
  · intro u hm
    rcases List.mem_append.1 hm with hm | hm
    · exact h3 u hm
    · have : u = nu := by simpa using hm
      rw [this]
      exact hv

/-- Claim C2: in every reachable store state there is at most one Review per
(author, title) pair — the rating_once uniqueness constraint — and this is
preserved by review creation and by the delete operations; for a user who has
already reviewed a title, submitting a second (otherwise valid) review for
that title fails with Conflict, so no row is added. -/
theorem claim_C2 (s : Store) (h : rating_once s.reviews) (a : String)
    (tid : Nat) (txt : String) (sc : Int) (nid cid tid2 : Nat) :
    (∀ s', insertReview s a tid txt sc nid = Except.ok s' →
      rating_once s'.reviews) ∧
    ((∃ r ∈ s.reviews, r.author = a ∧ r.title = tid) → scoreValid sc = true →
      insertReview s a tid txt sc nid = Except.error ApiError.Conflict) ∧
    rating_once (deleteCategory s cid).reviews ∧
    rating_once (deleteTitle s tid2).reviews := by
  refine ⟨?_, ?_, ?_, ?_⟩
  · intro s' hok
    unfold insertReview at hok
    by_cases hsc : scoreValid sc
    · rw [hsc] at hok
      simp only [Bool.not_true, Bool.false_eq_true, if_false] at hok
      by_cases hdup : s.reviews.any fun r => r.author == a && r.title == tid
      · rw [if_pos hdup] at hok
        exact absurd hok (by simp)
      · rw [if_neg hdup] at hok
        by_cases hti : s.titles.any fun t => t.id == tid
        · rw [hti] at hok
          simp only [Bool.not_true, Bool.false_eq_true, if_false,
            Except.ok.injEq] at hok
          rw [← hok]
          refine rating_once_append s.reviews _ h ?_
          intro r hr hc
          exact hdup (List.any_eq_true.2 ⟨r, hr, by simp [hc.1, hc.2]⟩)
        · simp only [Bool.not_eq_true] at hti
          rw [hti] at hok
          exact absurd hok (by simp)
    · simp only [Bool.not_eq_true] at hsc
      rw [hsc] at hok
      exact absurd hok (by simp)
  · rintro ⟨r, hr, ha, ht⟩ hsc
    unfold insertReview
    rw [hsc]
    simp only [Bool.not_true, Bool.false_eq_true, if_false]
    rw [if_pos (List.any_eq_true.2 ⟨r, hr, by simp [ha, ht]⟩)]
  · exact h
  · refine rating_once_of_sublist s.reviews _ ?_ h
    intro r hr
    exact (List.mem_filter.1 hr).1

/-- Claim C2 witness: in the sample store, alice has already reviewed title 7,
so her second review with a valid score is rejected with Conflict. -/
theorem claim_C2_witness :
    insertReview demoStore "alice" 7 "again" 9 2 =
      Except.error ApiError.Conflict :=
  (claim_C2 demoStore (by decide) "alice" 7 "again" 9 2 0 0).2.1
    (by decide) (by decide)

/-- Claim C3: the score bound of review creation is 1 to 10 inclusive at both
ends — the validators accept exactly the integers in [1, 10]; any value
outside (in particular 0 and 11) is rejected as InvalidInput, while a value
inside is never rejected as InvalidInput. -/
theorem claim_C3 (s : Store) (a txt : String) (tid nid : Nat) (sc : Int) :
    (scoreValid sc = true ↔ 1 ≤ sc ∧ sc ≤ 10) ∧
    (¬(1 ≤ sc ∧ sc ≤ 10) →
      insertReview s a tid txt sc nid = Except.error ApiError.InvalidInput) ∧
    (1 ≤ sc ∧ sc ≤ 10 →
      insertReview s a tid txt sc nid ≠ Except.error ApiError.InvalidInput) ∧
    scoreValid 0 = false ∧ scoreValid 11 = false ∧
    scoreValid 1 = true ∧ scoreValid 10 = true := by
  have hiff : scoreValid sc = true ↔ 1 ≤ sc ∧ sc ≤ 10 := by
    unfold scoreValid MinValueValidator MaxValueValidator
    simp
  refine ⟨hiff, ?_, ?_, by decide, by decide, by decide, by decide⟩
  · intro hout
    have hsc : scoreValid sc = false := by
      rcases Bool.eq_false_or_eq_true (scoreValid sc) with ht | hf
      · exact absurd (hiff.1 ht) hout
      · exact hf
    unfold insertReview
    rw [hsc]
    simp
  · intro hin
    have hsc : scoreValid sc = true := hiff.2 hin
    unfold insertReview
    rw [hsc]
    simp only [Bool.not_true, Bool.false_eq_true, if_false]
    split
    · simp
    · split
      · simp
      · simp

/-- Claim C3 witness: on the sample store, score 0 from a fresh author is
rejected as InvalidInput, and score 10 is not rejected as InvalidInput. -/
theorem claim_C3_witness :
    insertReview demoStore "bob" 7 "meh" 0 2 =
        Except.error ApiError.InvalidInput ∧
      insertReview demoStore "bob" 7 "meh" 10 2 ≠
        Except.error ApiError.InvalidInput :=
  ⟨(claim_C3 demoStore "bob" "meh" 7 2 0).2.1 (by decide),
   (claim_C3 demoStore "bob" "meh" 7 2 10).2.2.1 (by decide)⟩

/-- Claim C4: deleting a Category keeps every Title (same row count, each
title surviving with its category reference nulled when it pointed at the
deleted category and unchanged otherwise), while deleting a Title removes
exactly its Reviews and removes every Comment whose review was one of them. -/
theorem claim_C4 (s : Store) (cid tid : Nat) :
    ((deleteCategory s cid).titles.length = s.titles.length ∧
     ∀ t ∈ s.titles,
       (if t.category == some cid then { t with category := none } else t) ∈
         (deleteCategory s cid).titles) ∧
    (∀ r ∈ s.reviews, (r ∈ (deleteTitle s tid).reviews ↔ r.title ≠ tid)) ∧
    (∀ c ∈ (deleteTitle s tid).comments, ∀ r ∈ s.reviews,
      r.id = c.review → r.title ≠ tid) := by
  refine ⟨⟨?_, ?_⟩, ?_, ?_⟩
  · exact List.length_map s.titles _
  · intro t ht
    exact List.mem_map_of_mem _ ht
  · intro r hr
    unfold deleteTitle
    simp only [List.mem_filter]
    constructor
    · rintro ⟨-, hp⟩
      simpa using hp
    · intro hne
      exact ⟨hr, by simpa using hne⟩
  · intro c hc r hr hid hti
    have hmem : c ∈ s.comments.filter (fun c =>
        !((s.reviews.filter fun r => r.title == tid).any
          fun r2 => r2.id == c.review)) := hc
    have hp := (List.mem_filter.1 hmem).2
    rw [Bool.not_eq_true'] at hp
    have hany : (s.reviews.filter fun r => r.title == tid).any
        (fun r2 => r2.id == c.review) = true :=
      List.any_eq_true.2 ⟨r, List.mem_filter.2 ⟨hr, by simp [hti]⟩, by simp [hid]⟩
    rw [hany] at hp
    exact absurd hp (by simp)

/-- Claim C4 witness: deleting category 5 from the sample store keeps the
title count and keeps the sample title with its category cleared, while
deleting title 7 removes the sample review. -/
theorem claim_C4_witness :
    (deleteCategory demoStore 5).titles.length = demoStore.titles.length ∧
    ({ demoTitle with category := none } ∈ (deleteCategory demoStore 5).titles) ∧
    (demoReview ∈ (deleteTitle demoStore 7).reviews ↔ demoReview.title ≠ 7) :=
  ⟨(claim_C4 demoStore 5 7).1.1,
   by
     have h := (claim_C4 demoStore 5 7).1.2 demoTitle (by decide)
     simpa using h,
   (claim_C4 demoStore 5 7).2.1 demoReview (by decide)⟩

/-- Claim C7: whenever the username path parameter lowercases to me, the
users resource resolves the lookup key to the caller's own username, whatever
the caller's actual username is; no literal lookup of the parameter value is
performed in that case. -/
theorem claim_C7 (p c : String) (h : strLower p = "me") :
    resolveUsernameParam p c = c := by
  unfold resolveUsernameParam
  rw [if_pos (by simp [h])]

/-- Claim C7 witness: the parameter value ME, lowercasing to me, resolves to
the caller alice. -/
theorem claim_C7_witness : resolveUsernameParam "ME" "alice" = "alice" :=
  claim_C7 "ME" "alice" (by decide)

/-- Claim C9 counterexample: the categories and genres viewsets are built from
CreateModelMixin, ListModelMixin and DestroyModelMixin only, so the retrieve
action — a GET of the single-resource path /categories/{slug}/ or
/genres/{slug}/ — is not among their supported actions, contradicting the
claim that such a GET is a supported read operation. -/
theorem claim_C9_cex :
    Action.retrieve ∉ supportedActions categoriesViewSetMixins ∧
    Action.retrieve ∉ supportedActions genresViewSetMixins := by
  decide

/-- Claim C9 (amended): the operations supported on categories and genres are
exactly create, list and destroy; the single-resource GET (retrieve) is not
supported, so only the list path offers reads. -/
theorem claim_C9 :
    supportedActions categoriesViewSetMixins =
      [Action.create, Action.list, Action.destroy] ∧
    supportedActions genresViewSetMixins =
      [Action.create, Action.list, Action.destroy] ∧
    Action.retrieve ∉ supportedActions categoriesViewSetMixins ∧
    Action.update ∉ supportedActions categoriesViewSetMixins ∧
    Action.retrieve ∉ supportedActions genresViewSetMixins := by
  decide

/-- Claim C10: the token endpoint never writes: whatever the request and
whichever branch is taken (unknown username, wrong code, or a successful
mint), the store returned by tokenCreate is the input store. -/
theorem claim_C10 (s : Store) (un code : String) :
    (tokenCreate s un code).2 = s := by
  unfold tokenCreate
  cases s.users.find? fun u => u.username == un with
  | none => rfl
  | some u => by_cases hc : check_token u code <;> simp [hc]

/-- Claim C1: on a token-issuance request, an unknown username answers 404
with no token; a known user with a valid confirmation code answers 200 with a
body carrying the minted non-empty token; a known user with an invalid code
answers 400 with an error-message body and no token field. -/
theorem claim_C1 (s : Store) (un code : String) :
    ((s.users.find? fun u => u.username == un) = none →
      (tokenCreate s un code).1.status = 404 ∧
      (tokenCreate s un code).1.token = none) ∧
    (∀ u, (s.users.find? fun u => u.username == un) = some u →
      (check_token u code = true →
        (tokenCreate s un code).1.status = 200 ∧
        (tokenCreate s un code).1.token = some (accessTokenFor u) ∧
        accessTokenFor u ≠ "") ∧
      (check_token u code = false →
        (tokenCreate s un code).1.status = 400 ∧
        (tokenCreate s un code).1.token = none ∧
        (tokenCreate s un code).1.errorMsg = some "Код неправильный.")) := by
  constructor
  · intro hnone
    unfold tokenCreate
    rw [hnone]
    exact ⟨rfl, rfl⟩
  · intro u hsome
    constructor
    · intro hok
      have hred : tokenCreate s un code =
          ({ status := 200, token := some (accessTokenFor u),
             errorMsg := none }, s) := by
        unfold tokenCreate
        rw [hsome]
        simp [hok]
      rw [hred]
      exact ⟨rfl, rfl, accessTokenFor_ne_empty u⟩
    · intro hbad
      have hred : tokenCreate s un code =
          ({ status := 400, token := none,
             errorMsg := some "Код неправильный." }, s) := by
        unfold tokenCreate
        rw [hsome]
        simp [hbad]
      rw [hred]
      exact ⟨rfl, rfl, rfl⟩

/-- Claim C1 witness: in the sample store, an unknown username gives 404, the
valid code for alice gives 200 with a token, and a wrong code gives 400. -/
theorem claim_C1_witness :
    ((tokenCreate demoStore "ghost" "x").1.status = 404 ∧
      (tokenCreate demoStore "ghost" "x").1.token = none) ∧
    (tokenCreate demoStore "alice" (make_token demoUser)).1.status = 200 ∧
    ((tokenCreate demoStore "alice" "wrong").1.status = 400 ∧
      (tokenCreate demoStore "alice" "wrong").1.token = none) :=
  ⟨(claim_C1 demoStore "ghost" "x").1 (by decide),
   (((claim_C1 demoStore "alice" (make_token demoUser)).2 demoUser
      (by decide)).1 (by decide)).1,
   ⟨((((claim_C1 demoStore "alice" "wrong").2 demoUser (by decide)).2
      (by decide))).1,
    ((((claim_C1 demoStore "alice" "wrong").2 demoUser (by decide)).2
      (by decide))).2.1⟩⟩

/-- Claim C6 counterexample: a first sign-up with a fresh pair is answered
with HTTP 200 (views.py line 166 passes status.HTTP_200_OK), not with the
creation status 201 the claim states. -/
theorem claim_C6_cex :
    (signUp emptyStore "alice" "alice@example.com").toOption.map
        (fun out => out.2.1.status) = some 200 ∧
    (signUp emptyStore "alice" "alice@example.com").toOption.map
        (fun out => out.2.1.status) ≠ some 201 := by
  decide

/-- Claim C6 (amended): for a valid sign-up with a fresh (username, email)
pair, exactly one account record is appended, exactly one confirmation email
is dispatched to that address, the success headers are attached — but the
status is HTTP 200, not 201. -/
theorem claim_C6 (s : Store) (un em : String)
    (hv : signUpValidate s un em = none)
    (hfresh : (s.users.find? fun u => u.username == un) = none) :
    signUp s un em =
      Except.ok
        ({ s with users := s.users ++ [newSignUpUser un em] },
         { status := 200, hasSuccessHeaders := true,
           bodyUsername := un, bodyEmail := em },
         [{ recipient := em, code := make_token (newSignUpUser un em) }]) ∧
    (s.users ++ [newSignUpUser un em]).length = s.users.length + 1 ∧
    (newSignUpUser un em).username = un ∧ (newSignUpUser un em).email = em := by
  refine ⟨?_, by simp, rfl, rfl⟩
  unfold signUp
  rw [hv, hfresh]
  exact rfl

set_option maxRecDepth 8000 in
/-- Claim C6 witness: the fresh sign-up of alice on the empty store creates
her account, sends her the one confirmation email, and answers 200. -/
theorem claim_C6_witness :
    signUp emptyStore "alice" "alice@example.com" =
      Except.ok
        ({ emptyStore with
            users := emptyStore.users ++
              [newSignUpUser "alice" "alice@example.com"] },
         { status := 200, hasSuccessHeaders := true,
           bodyUsername := "alice", bodyEmail := "alice@example.com" },
         [{ recipient := "alice@example.com",
            code := make_token (newSignUpUser "alice" "alice@example.com") }]) :=
  (claim_C6 emptyStore "alice" "alice@example.com" (by decide) (by decide)).1

set_option maxRecDepth 8000 in
/-- Claim C5 counterexample: the User model accepts an email of 255
characters (the field declares max_length=255, not the claimed 254) and
accepts a null role (role declares null=True), so records violating the
claimed invariant are valid to the code. -/
theorem claim_C5_cex :
    userRecordValid longEmailUser = true ∧
    specUserRecordValid longEmailUser = false ∧
    userRecordValid nullRoleUser = true ∧
    specUserRecordValid nullRoleUser = false := by
  decide

/-- Claim C5 (amended): under the store invariant, usernames and emails are
pairwise distinct, every email is format-valid and at most 255 characters,
every role is null, blank, or one of user/moderator/admin, and every
user-mutating operation — sign-up, the administrative users create, partial
update and destroy — preserves the invariant, while the review, category and
title operations leave the user records unchanged. -/
theorem claim_C5 (s : Store) (h : usersInvariant s.users) :
    (∀ u1 ∈ s.users, ∀ u2 ∈ s.users, u1 ≠ u2 →
      u1.username ≠ u2.username ∧ u1.email ≠ u2.email) ∧
    (∀ u ∈ s.users, u.email.length ≤ 255 ∧ emailFormatValid u.email = true ∧
      u.role ∈ ([none, some "", some "user", some "moderator", some "admin"] :
        List (Option String))) ∧
    (∀ un em s' r es, signUp s un em = Except.ok (s', r, es) →
      usersInvariant s'.users) ∧
    (∀ un em bio ro s', usersCreate s un em bio ro = Except.ok s' →
      usersInvariant s'.users) ∧
    (∀ tgt nun nem nbio nro s',
      usersPartialUpdate s tgt nun nem nbio nro = Except.ok s' →
      usersInvariant s'.users) ∧
    (∀ tgt s', usersDestroy s tgt = Except.ok s' → usersInvariant s'.users) ∧
    (∀ a tid txt sc nid s', insertReview s a tid txt sc nid = Except.ok s' →
      s'.users = s.users) ∧
    (∀ cid, (deleteCategory s cid).users = s.users) ∧
    (∀ tid, (deleteTitle s tid).users = s.users) := by
  obtain ⟨h1, h2, h3⟩ := h
  refine ⟨?_, ?_, ?_, ?_, ?_, ?_, ?_, ?_, ?_⟩
  · intro u1 hm1 u2 hm2 hne
    constructor
    · intro heq
      exact hne (h1 u1 hm1 u2 hm2 heq)
    · intro heq
      exact hne (h2 u1 hm1 u2 hm2 heq)
  · intro u hm
    have hv := h3 u hm
    unfold userRecordValid at hv
    simp only [Bool.and_eq_true, decide_eq_true_eq] at hv
    obtain ⟨⟨⟨⟨⟨-, -⟩, -⟩, hlen⟩, hfmt⟩, hrole⟩ := hv
    refine ⟨hlen, hfmt, ?_⟩
    unfold roleValid at hrole
    cases hr : u.role with
    | none => simp
    | some v =>
      rw [hr] at hrole
      simp only [Bool.and_eq_true, Bool.or_eq_true, beq_iff_eq,
        decide_eq_true_eq] at hrole
      obtain ⟨-, hv2⟩ := hrole
      rcases hv2 with hv2 | hv2
      · simp [hv2]
      · have hmem : v ∈ ROLE_CHOICES := List.elem_iff.1 hv2
        simp only [ROLE_CHOICES, List.mem_cons, List.not_mem_nil, or_false] at hmem
        rcases hmem with rfl | rfl | rfl <;> simp
  · intro un em s' r es hok
    unfold signUp at hok
    cases hval : signUpValidate s un em with
    | some e =>
      rw [hval] at hok
      exact absurd hok (by simp)
    | none =>
      rw [hval] at hok
      cases hf : s.users.find? fun u => u.username == un with
      | some u =>
        rw [hf] at hok
        simp only [Except.ok.injEq, Prod.mk.injEq] at hok
        obtain ⟨hs, -⟩ := hok
        rw [← hs]
        exact ⟨h1, h2, h3⟩
      | none =>
        rw [hf] at hok
        simp only [Except.ok.injEq, Prod.mk.injEq] at hok
        obtain ⟨hs, -⟩ := hok
        rw [← hs]
        obtain ⟨hl0, hl150, hchars, he0, he254, hefmt, hanyf⟩ :=
          signUpValidate_facts s un em hval
        have hfreshu : ∀ u ∈ s.users, u.username ≠ un := by
          intro u hm heq
          have hnp := List.find?_eq_none.1 hf u hm
          simp [heq] at hnp
        have hany : (s.users.any fun u => u.email == em) = false := hanyf hf
        have hfreshe : ∀ u ∈ s.users, u.email ≠ em := by
          intro u hm heq
          have hfa := List.any_eq_false.1 hany u hm
          simp [heq] at hfa
        refine usersInvariant_append s.users _ ⟨h1, h2, h3⟩ ?_ ?_ ?_
        · intro u hm
          simpa [newSignUpUser] using hfreshu u hm
        · intro u hm
          simpa [newSignUpUser] using hfreshe u hm
        · have hrv : roleValid (some "user") = true := by decide
          unfold userRecordValid newSignUpUser
          simp only [Bool.and_eq_true, decide_eq_true_eq]
          exact ⟨⟨⟨⟨⟨hl0, hl150⟩, hchars⟩, by omega⟩, hefmt⟩, hrv⟩
  · intro un em bio ro s' hok
    unfold usersCreate at hok
    split at hok
    · exact absurd hok (by simp)
    split at hok
    · exact absurd hok (by simp)
    split at hok
    · exact absurd hok (by simp)
    rename_i hval huname hemail
    simp only [Except.ok.injEq] at hok
    rw [← hok]
    have hval' : userRecordValid (newAdminUser un em bio ro) = true := by
      have hb := Bool.of_not_eq_true hval
      simpa using hb
    have hu := Bool.of_not_eq_true huname
    have he := Bool.of_not_eq_true hemail
    refine usersInvariant_append s.users _ ⟨h1, h2, h3⟩ ?_ ?_ hval'
    · intro u hm
      have hfa := List.any_eq_false.1 hu u hm
      simpa [newAdminUser] using hfa
    · intro u hm
      have hfa := List.any_eq_false.1 he u hm
      simpa [newAdminUser] using hfa
  · intro tgt nun nem nbio nro s' hok
    unfold usersPartialUpdate at hok
    split at hok
    · exact absurd hok (by simp)
    rename_i u hfeq
    split at hok
    · exact absurd hok (by simp)
    split at hok
    · exact absurd hok (by simp)
    split at hok
    · exact absurd hok (by simp)
    rename_i hval huname hemail
    simp only [Except.ok.injEq] at hok
    rw [← hok]
    have hval' : userRecordValid (applyUserPatch u nun nem nbio nro) = true := by
      have hb := Bool.of_not_eq_true hval
      simpa using hb
    have hu := Bool.of_not_eq_true huname
    have he := Bool.of_not_eq_true hemail
    refine usersInvariant_update s.users tgt _ ⟨h1, h2, h3⟩ ?_ ?_ hval'
    · intro v hm hvt
      have hfa := List.any_eq_false.1 hu v hm
      have hb : (!(v.username == tgt)) = true := by simp [hvt]
      rw [hb, Bool.true_and] at hfa
      simpa using hfa
    · intro v hm hvt
      have hfa := List.any_eq_false.1 he v hm
      have hb : (!(v.username == tgt)) = true := by simp [hvt]
      rw [hb, Bool.true_and] at hfa
      simpa using hfa
  · intro tgt s' hok
    unfold usersDestroy at hok
    split at hok
    · exact absurd hok (by simp)
    simp only [Except.ok.injEq] at hok
    rw [← hok]
    refine usersInvariant_of_sublist s.users _ ?_ ⟨h1, h2, h3⟩
    intro u hm
    exact (List.mem_filter.1 hm).1
  · intro a tid txt sc nid s' hok
    unfold insertReview at hok
    split at hok
    · exact absurd hok (by simp)
    split at hok
    · exact absurd hok (by simp)
    split at hok
    · exact absurd hok (by simp)
    simp only [Except.ok.injEq] at hok
    rw [← hok]
  · intro cid
    rfl
  · intro tid
    rfl

/-- Claim C5 witness: the sample store satisfies the invariant, the amended
per-record bounds hold of its one user, and a category delete leaves the
user records unchanged. -/
theorem claim_C5_witness :
    (demoUser.email.length ≤ 255 ∧ emailFormatValid demoUser.email = true ∧
      demoUser.role ∈ ([none, some "", some "user", some "moderator", some "admin"] :
        List (Option String))) ∧
    (deleteCategory demoStore 5).users = demoStore.users :=
  ⟨(claim_C5 demoStore (by decide)).2.1 demoUser (by decide),
   (claim_C5 demoStore (by decide)).2.2.2.2.2.2.2.1 5⟩

/-- Claim C8 counterexample: the name filter uses the case-sensitive contains
lookup, so the filter value matrix does not return the title named Matrix
even though it matches case-insensitively as the claim states. -/
theorem claim_C8_cex :
    specNameMatchesCI demoTitle "matrix" = true ∧
    filterTitles matrixStore
      { name := some "matrix", genre := none, category := none,
        year := none } = [] := by
  decide

/-- Claim C8 (amended): the title-list result for a filtered request is
exactly the titles whose name contains the filter value as a case-sensitive
substring, whose linked genre and category slugs equal the genre and category
filter values exactly, and whose year equals the year filter exactly. -/
theorem claim_C8 (s : Store) (fp : TitleFilterParams) (t : Title) :
    t ∈ filterTitles s fp ↔
      t ∈ s.titles ∧
      (∀ v, fp.name = some v →
        ∃ pre post, t.name.toList = pre ++ v.toList ++ post) ∧
      (∀ v, fp.genre = some v →
        ∃ g ∈ s.genres, g.id ∈ t.genre ∧ g.slug = v) ∧
      (∀ v, fp.category = some v →
        ∃ cid, t.category = some cid ∧
          ∃ c ∈ s.categories, c.id = cid ∧ c.slug = v) ∧
      (∀ v, fp.year = some v → t.year = v) := by
  obtain ⟨fn, fg, fc, fy⟩ := fp
  rw [filterTitles, List.mem_filter]
  unfold titleMatches
  cases fn <;> cases fg <;> cases fc <;> cases fy <;>
    cases htc : t.category <;>
      simp [strContains_iff, List.any_eq_true, List.elem_iff, and_assoc, htc]

/-- Claim C8 witness: the case-sensitive value Mat does return the title
named Matrix in the sample store. -/
theorem claim_C8_witness :
    demoTitle ∈ filterTitles matrixStore
      { name := some "Mat", genre := none, category := none, year := none } :=
  (claim_C8 matrixStore
      { name := some "Mat", genre := none, category := none, year := none }
      demoTitle).mpr
    ⟨by decide,
     fun v hv => by
       injection hv with h
       subst h
       exact ⟨[], ['r', 'i', 'x'], by decide⟩,
     fun v hv => Option.noConfusion hv,
     fun v hv => Option.noConfusion hv,
     fun v hv => Option.noConfusion hv⟩

end YaMDb
